import Mathlib

/-!
Verification of the coordination layer of `mugen_claude`
(`src/mugen_claude/coordination/manager.py` and
`src/mugen_claude/coordination/file_lock.py`), as a shallow embedding:
Python dicts become association lists, the shared manager state becomes an
explicit `ManagerState` record threaded through the operations, raising an
exception becomes returning `Except`, and `datetime.now()` becomes a
monotone tick counter stored in the state (one tick per call).
-/

set_option autoImplicit false

namespace MugenClaude

/-- Model of the Python values that flow through the coordination layer
(contents of the shared dicts and of the message queue).  ISO-8601
timestamp strings produced by `datetime.isoformat` are modelled opaquely by
the `isoTimestamp` constructor carrying the tick of the `datetime` they
render, since the decimal rendering itself is Python-stdlib behaviour, not
code of this repository; `datetime.fromisoformat` inverts it and fails on
any other value. -/
inductive PyVal where
  | vnone : PyVal
  | vbool : Bool → PyVal
  | vint : Int → PyVal
  | vstr : String → PyVal
  | isoTimestamp : Nat → PyVal
  | vdict : List (String × PyVal) → PyVal

/-- Python exceptions that the embedded code can raise. -/
inductive PyError where
  | keyError : String → PyError
  | typeError : PyError
  | valueError : PyError
  | queueEmpty : PyError
deriving DecidableEq

/-- First binding of key `k` in an association list (Python dict lookup). -/
def alookup {α : Type} (k : String) : List (String × α) → Option α
  | [] => Option.none
  | (k2, v) :: rest => if k2 = k then some v else alookup k rest

/-- Python dict assignment `d[k] = v`: replace the binding of `k` if
present, otherwise append a new binding (Python dicts keep insertion
order, appending new keys at the end). -/
def aset {α : Type} (k : String) (v : α) : List (String × α) → List (String × α)
  | [] => [(k, v)]
  | (k2, v2) :: rest => if k2 = k then (k, v) :: rest else (k2, v2) :: aset k v rest

/-- Python `del d[k]`: remove the first binding of `k`. -/
def aerase {α : Type} (k : String) : List (String × α) → List (String × α)
  | [] => []
  | (k2, v2) :: rest => if k2 = k then rest else (k2, v2) :: aerase k rest

/-- Python `data[k]` on a value: key lookup on a dict, `KeyError` when the
key is absent, `TypeError` when the value is not a dict. -/
def PyVal.getItem (v : PyVal) (k : String) : Except PyError PyVal :=
  match v with
  | PyVal.vdict entries =>
    match alookup k entries with
    | some x => Except.ok x
    | Option.none => Except.error (PyError.keyError k)
  | _ => Except.error PyError.typeError

/-- Python `data.get(k)` on a dict: the bound value, or `None` when the key
is absent. -/
def PyVal.getDefault (v : PyVal) (k : String) : Except PyError PyVal :=
  match v with
  | PyVal.vdict entries => Except.ok ((alookup k entries).getD PyVal.vnone)
  | _ => Except.error PyError.typeError

/-- Python truthiness of a value, used by `if data.get("started_at")`. -/
def PyVal.truthy : PyVal → Bool
  | PyVal.vnone => false
  | PyVal.vbool b => b
  | PyVal.vint n => decide (n ≠ 0)
  | PyVal.vstr s => !s.isEmpty
  | PyVal.isoTimestamp _ => true
  | PyVal.vdict entries => !entries.isEmpty

/-- Reading a field annotated `str` out of a decoded dict value. -/
def asStr : PyVal → Except PyError String
  | PyVal.vstr s => Except.ok s
  | _ => Except.error PyError.typeError

/-- Reading a field annotated `Optional[str]` out of a decoded dict value. -/
def asOptStr : PyVal → Except PyError (Option String)
  | PyVal.vnone => Except.ok Option.none
  | PyVal.vstr s => Except.ok (some s)
  | _ => Except.error PyError.typeError

/-- Reading a field annotated `Dict[str, Any]` out of a decoded dict value. -/
def asEntries : PyVal → Except PyError (List (String × PyVal))
  | PyVal.vdict entries => Except.ok entries
  | _ => Except.error PyError.typeError

/-- Python `datetime.fromisoformat`: inverts `isoformat`, `ValueError` on anything
that is not an ISO timestamp string. -/
def fromisoformat : PyVal → Except PyError Nat
  | PyVal.isoTimestamp t => Except.ok t
  | _ => Except.error PyError.valueError

/-- The value of an `Optional[str]` field as stored in a dict. -/
def optStrVal : Option String → PyVal
  | Option.none => PyVal.vnone
  | some s => PyVal.vstr s

/-- The value of an `Optional[datetime]` field as stored in a dict
(`self.started_at.isoformat() if self.started_at else None`). -/
def optTimeVal : Option Nat → PyVal
  | Option.none => PyVal.vnone
  | some t => PyVal.isoTimestamp t

/-- The `AgentMessage` dataclass: message passed between agents.  Field types
follow the dataclass annotations; `to_agent = None` means broadcast;
timestamps are model ticks. -/
structure AgentMessage where
  from_agent : String
  to_agent : Option String
  message_type : String
  content : List (String × PyVal)
  timestamp : Nat

/-- Serialization `AgentMessage.to_dict`. -/
def AgentMessage.to_dict (m : AgentMessage) : PyVal :=
  PyVal.vdict
    [ ("from_agent", PyVal.vstr m.from_agent)
    , ("to_agent", optStrVal m.to_agent)
    , ("message_type", PyVal.vstr m.message_type)
    , ("content", PyVal.vdict m.content)
    , ("timestamp", PyVal.isoTimestamp m.timestamp) ]

/-- Deserialization `AgentMessage.from_dict`: required keys are read with `data[...]`
(`KeyError` when absent), `to_agent` with `data.get(...)`; a stored value
that does not fit the dataclass annotation is a decode error. -/
def AgentMessage.from_dict (data : PyVal) : Except PyError AgentMessage := do
  let fa ← asStr (← data.getItem "from_agent")
  let ta ← asOptStr (← data.getDefault "to_agent")
  let mt ← asStr (← data.getItem "message_type")
  let ct ← asEntries (← data.getItem "content")
  let ts ← fromisoformat (← data.getItem "timestamp")
  Except.ok
    { from_agent := fa, to_agent := ta, message_type := mt
    , content := ct, timestamp := ts }

/-- Characterization of exactly the raw values on which Python's
`AgentMessage.from_dict` raises: a non-dict value (string-keyed indexing
raises `TypeError`), a dict missing one of the keys read with `data[...]`
(`KeyError`), or a stored timestamp that is not an ISO timestamp string
(`datetime.fromisoformat` raises `TypeError` or `ValueError`).  Python
performs no further checks: the other annotated fields are stored
unchecked, so the model decoder — which does enforce the annotations — is
stricter; `pyFromDictRaises_false_of_ok` below records that whenever the
model decoder succeeds, Python's raises none of these. -/
def pyFromDictRaises (d : PyVal) : Bool :=
  match d with
  | PyVal.vdict entries =>
    (alookup "from_agent" entries).isNone ||
    (alookup "message_type" entries).isNone ||
    (alookup "content" entries).isNone ||
    (match alookup "timestamp" entries with
     | Option.none => true
     | some (PyVal.isoTimestamp _) => false
     | some _ => true)
  | _ => true

/-- The `AgentStatus` dataclass: status information for an agent process. -/
structure AgentStatus where
  agent_id : String
  agent_type : String
  status : String
  current_task : Option String
  started_at : Option Nat
  completed_at : Option Nat
  error : Option String

/-- Serialization `AgentStatus.to_dict`. -/
def AgentStatus.to_dict (a : AgentStatus) : PyVal :=
  PyVal.vdict
    [ ("agent_id", PyVal.vstr a.agent_id)
    , ("agent_type", PyVal.vstr a.agent_type)
    , ("status", PyVal.vstr a.status)
    , ("current_task", optStrVal a.current_task)
    , ("started_at", optTimeVal a.started_at)
    , ("completed_at", optTimeVal a.completed_at)
    , ("error", optStrVal a.error) ]

/-- Deserialization `AgentStatus.from_dict`: the timestamp fields are decoded as
`datetime.fromisoformat(data["started_at"]) if data.get("started_at")
else None`, hence guarded by Python truthiness of the stored value. -/
def AgentStatus.from_dict (data : PyVal) : Except PyError AgentStatus := do
  let aid ← asStr (← data.getItem "agent_id")
  let aty ← asStr (← data.getItem "agent_type")
  let st ← asStr (← data.getItem "status")
  let ct ← asOptStr (← data.getDefault "current_task")
  let sag ← data.getDefault "started_at"
  let sa ←
    if sag.truthy then do
      let t ← fromisoformat (← data.getItem "started_at")
      pure (some t)
    else
      pure Option.none
  let cag ← data.getDefault "completed_at"
  let ca ←
    if cag.truthy then do
      let t ← fromisoformat (← data.getItem "completed_at")
      pure (some t)
    else
      pure Option.none
  let er ← asOptStr (← data.getDefault "error")
  Except.ok
    { agent_id := aid, agent_type := aty, status := st, current_task := ct
    , started_at := sa, completed_at := ca, error := er }

/-- The shared state owned by `CoordinationManager`: the registry of status
dicts, the single message queue (front of the list is the next message
popped), the logical file-lock table (`path → owning agent id`), the
result store, and the model clock advanced by each `datetime.now()`
call. -/
structure ManagerState where
  agent_status : List (String × PyVal)
  message_queue : List PyVal
  file_locks : List (String × String)
  results : List (String × PyVal)
  clock : Nat

/-- A freshly constructed `CoordinationManager`: all tables empty. -/
def initState : ManagerState :=
  { agent_status := [], message_queue := [], file_locks := [], results := []
  , clock := 0 }

/-- Operation `CoordinationManager.register_agent`: store the dict of a fresh
`AgentStatus` record in state `idle` under the agent id. -/
def register_agent (st : ManagerState) (agent_id agent_type : String) : ManagerState :=
  { st with
    agent_status := aset agent_id
      (AgentStatus.to_dict
        { agent_id := agent_id, agent_type := agent_type, status := "idle"
        , current_task := Option.none, started_at := Option.none
        , completed_at := Option.none, error := Option.none })
      st.agent_status }

/-- The record mutation inside `update_agent_status`: overwrite
status/current_task/error with the arguments, set `started_at` to `now`
only when the new status is `running` and `started_at` is still unset,
otherwise (`elif`) set `completed_at` to `now` whenever the new status is
`completed` or `error`. -/
def AgentStatus.update (a0 : AgentStatus) (status : String)
    (current_task : Option String) (error : Option String) (now : Nat) :
    AgentStatus :=
  let a1 := { a0 with status := status, current_task := current_task, error := error }
  if status = "running" ∧ a1.started_at = Option.none then
    { a1 with started_at := some now }
  else if status = "completed" ∨ status = "error" then
    { a1 with completed_at := some now }
  else
    a1

/-- Operation `CoordinationManager.update_agent_status`: decode the stored record
(`self.agent_status[agent_id]` raises `KeyError` when the id is not
registered), apply `AgentStatus.update` with `datetime.now()` read from
the model clock, and store the resulting dict back under the id. -/
def update_agent_status (st : ManagerState) (agent_id status : String)
    (current_task : Option String) (error : Option String) :
    Except PyError ManagerState :=
  match alookup agent_id st.agent_status with
  | Option.none => Except.error (PyError.keyError agent_id)
  | some data =>
    match AgentStatus.from_dict data with
    | Except.error e => Except.error e
    | Except.ok a0 =>
      Except.ok
        { st with
          agent_status :=
            aset agent_id
              (AgentStatus.to_dict (a0.update status current_task error st.clock))
              st.agent_status
        , clock := st.clock + 1 }

/-- Operation `CoordinationManager.send_message`: put `msg.to_dict()` on the tail of
the global message queue. -/
def send_message (st : ManagerState) (msg : AgentMessage) : ManagerState :=
  { st with message_queue := st.message_queue ++ [AgentMessage.to_dict msg] }

/-- The body of the `try` block of `CoordinationManager.get_message`: pop
the next raw dict from the queue (an empty queue raises `queue.Empty`
once the timeout elapses, leaving the queue as it was), then decode it —
the destructive pop precedes any decode raise, so a raised error carries
the state with the head already consumed.  A decoded message is returned
when it is a broadcast or addressed to `agent_id`; otherwise the raw dict
is pushed back onto the tail of the queue and the attempt yields
nothing. -/
def get_message_body (st : ManagerState) (agent_id : String) :
    Except (PyError × ManagerState) (Option AgentMessage × ManagerState) :=
  match st.message_queue with
  | [] => Except.error (PyError.queueEmpty, st)
  | msg_dict :: rest =>
    match AgentMessage.from_dict msg_dict with
    | Except.error e => Except.error (e, { st with message_queue := rest })
    | Except.ok msg =>
      if msg.to_agent = Option.none ∨ msg.to_agent = some agent_id then
        Except.ok (some msg, { st with message_queue := rest })
      else
        Except.ok (Option.none, { st with message_queue := rest ++ [msg_dict] })

/-- Operation `CoordinationManager.get_message`: the `try` body wrapped by
the bare `except: return None`, which turns every raise into the absent
value while keeping whatever state the body left at the point of the
raise (the bare `except` does not restore a popped head).  The `timeout`
argument only bounds the real-time wait on an empty queue and does not
affect the result. -/
def get_message (st : ManagerState) (agent_id : String) (timeout : Nat) :
    Option AgentMessage × ManagerState :=
  match get_message_body st agent_id with
  | Except.ok r => r
  | Except.error er => (Option.none, er.2)

/-- Operation `CoordinationManager.acquire_file_lock`: if the path is present in the
table (locked by anyone, the caller included) return `False` and leave the
table alone; otherwise insert `path → agent_id` and return `True`. -/
def acquire_file_lock (st : ManagerState) (agent_id file_path : String) :
    Bool × ManagerState :=
  if (alookup file_path st.file_locks).isSome then
    (false, st)
  else
    (true, { st with file_locks := aset file_path agent_id st.file_locks })

/-- Operation `CoordinationManager.release_file_lock`: delete the entry only when
`self.file_locks.get(file_path) == agent_id`; otherwise do nothing. -/
def release_file_lock (st : ManagerState) (agent_id file_path : String) :
    ManagerState :=
  if alookup file_path st.file_locks = some agent_id then
    { st with file_locks := aerase file_path st.file_locks }
  else
    st

/-- One call against the logical file-lock table. -/
inductive FileOp where
  | acq : String → String → FileOp
  | rel : String → String → FileOp

/-- Apply one lock-table call to the manager state (the boolean result of
an acquire is dropped; only the state evolution matters here). -/
def applyFileOp (st : ManagerState) : FileOp → ManagerState
  | FileOp.acq agent_id file_path => (acquire_file_lock st agent_id file_path).2
  | FileOp.rel agent_id file_path => release_file_lock st agent_id file_path

/-- Run a sequence of lock-table calls from a starting state. -/
def runFileOps (st : ManagerState) : List FileOp → ManagerState
  | [] => st
  | op :: rest => runFileOps (applyFileOp st op) rest

/-- The keys of an association list are pairwise distinct. -/
@[reducible]
def nodupKeys {α : Type} (l : List (String × α)) : Prop :=
  (l.map Prod.fst).Nodup

/-- Class `FileLock` (file_lock.py): OS-level advisory lock on a sidecar marker
file.  `lock_fd` is the open file descriptor of the marker file while the
handle holds the lock, `None` otherwise. -/
structure FileLock where
  file_path : String
  timeout : Nat
  lock_file_path : String
  lock_fd : Option Nat
deriving DecidableEq

/-- Constructor `FileLock.__init__`: unlocked handle, marker path `<path>.lock`. -/
def FileLock.init (file_path : String) (timeout : Nat) : FileLock :=
  { file_path := file_path, timeout := timeout
  , lock_file_path := file_path ++ ".lock", lock_fd := Option.none }

/-- Outcome of a `FileLock.acquire` call: the returned boolean, the handle
afterwards, and how many `fcntl.flock` attempts were made against the
operating system. -/
structure AcquireResult where
  ok : Bool
  lock : FileLock
  os_attempts : Nat
deriving DecidableEq

/-- The blocking retry loop of `FileLock.acquire`: `os` is the sequence of
`fcntl.flock` outcomes the operating system would give on successive
attempts (`true` = lock granted, `false` = `BlockingIOError`), cut off at
the point where the configured timeout elapses; when it is exhausted the
loop gives up, closes the descriptor and returns failure. -/
def flockRetry (l : FileLock) (fd : Nat) (n : Nat) : List Bool → AcquireResult
  | [] => { ok := false, lock := { l with lock_fd := Option.none }, os_attempts := n }
  | granted :: rest =>
    if granted then
      { ok := true, lock := { l with lock_fd := some fd }, os_attempts := n + 1 }
    else
      flockRetry l fd (n + 1) rest

/-- Method `FileLock.acquire`: if the handle already holds the lock
(`self.lock_fd is not None`) return `True` at once, without touching the
operating system or the handle.  Otherwise open the marker file (the fresh
descriptor is `fd`) and attempt the OS lock: in blocking mode retry until
granted or until the timeout cuts `os` off, in non-blocking mode make a
single attempt. -/
def FileLock.acquire (l : FileLock) (blocking : Bool) (fd : Nat) (os : List Bool) :
    AcquireResult :=
  if l.lock_fd.isSome then
    { ok := true, lock := l, os_attempts := 0 }
  else
    let opened := { l with lock_fd := some fd }
    if blocking then
      flockRetry opened fd 0 os
    else
      if os.headD false then
        { ok := true, lock := opened, os_attempts := 1 }
      else
        { ok := false, lock := { opened with lock_fd := Option.none }, os_attempts := 1 }

/-- The status record currently registered under an agent id, decoded back
from its stored dict (the registry stores dicts, as the Python code
does). -/
def regRecord (st : ManagerState) (agent_id : String) : Option AgentStatus :=
  match alookup agent_id st.agent_status with
  | Option.none => Option.none
  | some data =>
    match AgentStatus.from_dict data with
    | Except.error _ => Option.none
    | Except.ok a => some a

/-- The `started_at` field of the registered record, when present. -/
def startedAtIn (st : ManagerState) (agent_id : String) : Option (Option Nat) :=
  (regRecord st agent_id).map AgentStatus.started_at

/-- The `completed_at` field of the registered record of `agent_id` after
an `update_agent_status` outcome (`none` when the call failed or the id is
unregistered). -/
def completedAtAfter (r : Except PyError ManagerState) (agent_id : String) :
    Option (Option Nat) :=
  match r with
  | Except.error _ => Option.none
  | Except.ok st => (regRecord st agent_id).map AgentStatus.completed_at

/-! ### Association-list lemmas -/

theorem alookup_eq_none_iff {α : Type} (k : String) (l : List (String × α)) :
    alookup k l = Option.none ↔ k ∉ l.map Prod.fst := by
  induction l with
  | nil => simp [alookup]
  | cons p rest ih =>
    obtain ⟨k2, v⟩ := p
    simp only [alookup, List.map_cons, List.mem_cons]
    by_cases hk : k2 = k
    · subst hk
      simp
    · rw [if_neg hk, ih]
      constructor
      · intro h hmem
        rcases hmem with h1 | h1
        · exact hk h1.symm
        · exact h h1
      · intro h h1
        exact h (Or.inr h1)

theorem alookup_aset_self {α : Type} (k : String) (v : α) (l : List (String × α)) :
    alookup k (aset k v l) = some v := by
  induction l with
  | nil => simp [aset, alookup]
  | cons p rest ih =>
    obtain ⟨k2, v2⟩ := p
    by_cases hk : k2 = k <;> simp [aset, alookup, hk, ih]

theorem mem_keys_aset {α : Type} (x k : String) (v : α) (l : List (String × α)) :
    x ∈ (aset k v l).map Prod.fst ↔ x = k ∨ x ∈ l.map Prod.fst := by
  induction l with
  | nil => simp [aset]
  | cons p rest ih =>
    obtain ⟨k2, v2⟩ := p
    simp only [aset]
    by_cases hk : k2 = k
    · rw [if_pos hk]
      subst hk
      simp only [List.map_cons, List.mem_cons]
      tauto
    · rw [if_neg hk]
      simp only [List.map_cons, List.mem_cons, ih]
      tauto

theorem nodupKeys_aset {α : Type} (k : String) (v : α) (l : List (String × α))
    (h : nodupKeys l) : nodupKeys (aset k v l) := by
  induction l with
  | nil => simp [nodupKeys, aset]
  | cons p rest ih =>
    obtain ⟨k2, v2⟩ := p
    unfold nodupKeys at h ⊢
    simp only [List.map_cons, List.nodup_cons] at h
    simp only [aset]
    by_cases hk : k2 = k
    · rw [if_pos hk]
      simp only [List.map_cons, List.nodup_cons]
      subst hk
      exact h
    · rw [if_neg hk]
      simp only [List.map_cons, List.nodup_cons]
      refine ⟨?_, ih h.2⟩
      intro hmem
      rcases (mem_keys_aset k2 k v rest).mp hmem with h1 | h1
      · exact hk h1
      · exact h.1 h1

theorem keys_aerase_sublist {α : Type} (k : String) (l : List (String × α)) :
    ((aerase k l).map Prod.fst).Sublist (l.map Prod.fst) := by
  induction l with
  | nil => simp [aerase]
  | cons p rest ih =>
    obtain ⟨k2, v2⟩ := p
    by_cases hk : k2 = k
    · simp only [aerase, if_pos hk, List.map_cons]
      exact (List.sublist_cons_self _ _)
    · simp only [aerase, if_neg hk, List.map_cons]
      exact ih.cons₂ k2

theorem nodupKeys_aerase {α : Type} (k : String) (l : List (String × α))
    (h : nodupKeys l) : nodupKeys (aerase k l) :=
  (keys_aerase_sublist k l).nodup h

theorem alookup_aerase_self {α : Type} (k : String) (l : List (String × α))
    (h : nodupKeys l) : alookup k (aerase k l) = Option.none := by
  induction l with
  | nil => simp [aerase, alookup]
  | cons p rest ih =>
    obtain ⟨k2, v2⟩ := p
    unfold nodupKeys at h
    simp only [List.map_cons, List.nodup_cons] at h
    by_cases hk : k2 = k
    · subst hk
      simp only [aerase, if_pos rfl]
      exact (alookup_eq_none_iff k2 rest).mpr h.1
    · simp only [aerase, if_neg hk, alookup, if_neg hk]
      exact ih h.2

/-! ### Serialization round-trip helpers -/

theorem from_dict_to_dict_message (m : AgentMessage) :
    AgentMessage.from_dict m.to_dict = Except.ok m := by
  cases m with
  | mk fa ta mt ct ts => cases ta <;> rfl

theorem from_dict_to_dict_status (a : AgentStatus) :
    AgentStatus.from_dict a.to_dict = Except.ok a := by
  cases a with
  | mk aid aty st ct sa ca er =>
    cases ct <;> cases sa <;> cases ca <;> cases er <;> rfl

/-! ### Lock-table invariant helpers -/

theorem nodupKeys_applyFileOp (st : ManagerState) (op : FileOp)
    (h : nodupKeys st.file_locks) : nodupKeys (applyFileOp st op).file_locks := by
  cases op with
  | acq agent_id file_path =>
    simp only [applyFileOp, acquire_file_lock]
    cases halk : alookup file_path st.file_locks with
    | none =>
      simp only [halk, Option.isSome_none, Bool.false_eq_true, if_false]
      exact nodupKeys_aset file_path agent_id st.file_locks h
    | some owner =>
      simp only [halk, Option.isSome_some, if_true]
      exact h
  | rel agent_id file_path =>
    simp only [applyFileOp, release_file_lock]
    by_cases hc : alookup file_path st.file_locks = some agent_id
    · rw [if_pos hc]
      exact nodupKeys_aerase file_path st.file_locks h
    · rw [if_neg hc]
      exact h

theorem nodupKeys_runFileOps (ops : List FileOp) (st : ManagerState)
    (h : nodupKeys st.file_locks) : nodupKeys (runFileOps st ops).file_locks := by
  induction ops generalizing st with
  | nil => exact h
  | cons op rest ih => exact ih (applyFileOp st op) (nodupKeys_applyFileOp st op h)

/-! ### Claim theorems -/

/-- C8: serializing an `AgentMessage` or an `AgentStatus` with `to_dict`
and deserializing with `from_dict` reproduces the record field-for-field,
including optional fields left absent and the timestamp fields. -/
theorem dict_roundtrip_message_and_status :
    (∀ m : AgentMessage, AgentMessage.from_dict m.to_dict = Except.ok m) ∧
    (∀ a : AgentStatus, AgentStatus.from_dict a.to_dict = Except.ok a) :=
  ⟨from_dict_to_dict_message, from_dict_to_dict_status⟩

/-- C1: across every sequence of `acquire_file_lock` and
`release_file_lock` calls starting from a fresh manager, the lock table
never holds two entries for one path, so at most one agent owns the
logical lock on a path at any time; and whenever a path is present in the
table — held by anyone, the calling agent included — a further
`acquire_file_lock` call on it returns `False` and leaves the state
untouched, so acquisition is not re-entrant. -/
theorem acquire_file_lock_mutual_exclusion :
    (∀ ops : List FileOp, nodupKeys (runFileOps initState ops).file_locks) ∧
    (∀ (st : ManagerState) (agent_id owner file_path : String),
      alookup file_path st.file_locks = some owner →
      acquire_file_lock st agent_id file_path = (false, st)) := by
  constructor
  · intro ops
    exact nodupKeys_runFileOps ops initState (by simp [initState, nodupKeys])
  · intro st agent_id owner file_path h
    simp [acquire_file_lock, h]

/-- C1 witness: after agent `a1` takes the lock on `f.txt`, a second
acquire by `a1` itself is refused, and a concrete acquire/acquire/release
history keeps the table free of duplicate entries. -/
theorem acquire_file_lock_mutual_exclusion_witness :
    nodupKeys (runFileOps initState
      [FileOp.acq "a1" "f.txt", FileOp.acq "a2" "f.txt", FileOp.rel "a1" "f.txt"]).file_locks ∧
    acquire_file_lock (acquire_file_lock initState "a1" "f.txt").2 "a1" "f.txt" =
      (false, (acquire_file_lock initState "a1" "f.txt").2) :=
  And.intro
    (acquire_file_lock_mutual_exclusion.1
      [FileOp.acq "a1" "f.txt", FileOp.acq "a2" "f.txt", FileOp.rel "a1" "f.txt"])
    (acquire_file_lock_mutual_exclusion.2 (acquire_file_lock initState "a1" "f.txt").2
      "a1" "a1" "f.txt" (by decide))

/-- C6: when `file_path` is owned by `owner` in a table without duplicate
entries (the invariant of every reachable state), `release_file_lock` by
any other agent is a no-op that leaves the whole state — hence the entry —
intact and raises nothing, while `release_file_lock` by the owner removes
the entry, after which `acquire_file_lock` by any agent on that path
returns `True`. -/
theorem release_file_lock_owner_only (st : ManagerState) (owner file_path : String)
    (hnd : nodupKeys st.file_locks)
    (hown : alookup file_path st.file_locks = some owner) :
    (∀ other : String, other ≠ owner → release_file_lock st other file_path = st) ∧
    alookup file_path (release_file_lock st owner file_path).file_locks = Option.none ∧
    (∀ agent2 : String,
      (acquire_file_lock (release_file_lock st owner file_path) agent2 file_path).1 = true) := by
  have hrel : alookup file_path (release_file_lock st owner file_path).file_locks
      = Option.none := by
    unfold release_file_lock
    rw [if_pos hown]
    exact alookup_aerase_self file_path st.file_locks hnd
  refine ⟨?_, hrel, ?_⟩
  · intro other hne
    have hc : ¬alookup file_path st.file_locks = some other := by
      rw [hown]
      intro hcontra
      exact hne (Option.some.inj hcontra).symm
    unfold release_file_lock
    rw [if_neg hc]
  · intro agent2
    unfold acquire_file_lock
    rw [hrel]
    simp

/-- C6 witness: with `o` owning `p`, a release by `x` changes nothing, a
release by `o` empties the entry, after which `y` can acquire. -/
theorem release_file_lock_owner_only_witness :
    release_file_lock (acquire_file_lock initState "o" "p").2 "x" "p" =
      (acquire_file_lock initState "o" "p").2 ∧
    alookup "p" (release_file_lock (acquire_file_lock initState "o" "p").2 "o" "p").file_locks
      = Option.none ∧
    (acquire_file_lock (release_file_lock (acquire_file_lock initState "o" "p").2 "o" "p")
      "y" "p").1 = true := by
  have h := release_file_lock_owner_only (acquire_file_lock initState "o" "p").2 "o" "p"
    (by decide) (by decide)
  exact ⟨h.1 "x" (by decide), h.2.1, h.2.2 "y"⟩

/-- C4: `update_agent_status` on an id that is not registered fails with
the `KeyError` carrying that id — a NotFound-kind error propagated to the
caller rather than absorbed — and, the call producing no successor state,
the registry is left unchanged. -/
theorem update_agent_status_unregistered (st : ManagerState)
    (agent_id status : String) (current_task error : Option String)
    (h : alookup agent_id st.agent_status = Option.none) :
    update_agent_status st agent_id status current_task error =
      Except.error (PyError.keyError agent_id) := by
  unfold update_agent_status
  rw [h]

/-- C4 witness: updating the never-registered id `ghost` on a fresh
manager raises `KeyError "ghost"`. -/
theorem update_agent_status_unregistered_witness :
    update_agent_status initState "ghost" "running" Option.none Option.none =
      Except.error (PyError.keyError "ghost") :=
  update_agent_status_unregistered initState "ghost" "running"
    Option.none Option.none (by rfl)

/-- Inversion of a successful `Except` bind: both stages succeeded. -/
theorem except_bind_ok_inv {ε α β : Type} {a : Except ε α}
    {f : α → Except ε β} {b : β} (h : bind a f = Except.ok b) :
    ∃ x, a = Except.ok x ∧ f x = Except.ok b := by
  cases a with
  | error e => exact Except.noConfusion h
  | ok x => exact ⟨x, rfl, h⟩

/-- Inversion of a successful `data[k]` access on a dict. -/
theorem getItem_ok_inv {entries : List (String × PyVal)} {k : String}
    {x : PyVal} (h : PyVal.getItem (PyVal.vdict entries) k = Except.ok x) :
    alookup k entries = some x := by
  simp only [PyVal.getItem] at h
  cases ha : alookup k entries with
  | none =>
    rw [ha] at h
    exact Except.noConfusion h
  | some v =>
    rw [ha] at h
    exact congrArg some (Except.ok.inj h)

/-- Inversion of a successful `datetime.fromisoformat`. -/
theorem fromisoformat_ok_inv {v : PyVal} {t : Nat}
    (h : fromisoformat v = Except.ok t) : v = PyVal.isoTimestamp t := by
  cases v <;> simp_all [fromisoformat]

/-- A raw value the model decoder accepts is also one Python's decoder
accepts: a successful `AgentMessage.from_dict` implies none of the
conditions under which Python's untyped decode raises. -/
theorem pyFromDictRaises_false_of_ok (d : PyVal) (m : AgentMessage)
    (h : AgentMessage.from_dict d = Except.ok m) : pyFromDictRaises d = false := by
  cases d with
  | vdict entries =>
    unfold AgentMessage.from_dict at h
    obtain ⟨x1, h1, h⟩ := except_bind_ok_inv h
    obtain ⟨fa, hfa, h⟩ := except_bind_ok_inv h
    obtain ⟨x2, h2, h⟩ := except_bind_ok_inv h
    obtain ⟨ta, hta, h⟩ := except_bind_ok_inv h
    obtain ⟨x3, h3, h⟩ := except_bind_ok_inv h
    obtain ⟨mt, hmt, h⟩ := except_bind_ok_inv h
    obtain ⟨x4, h4, h⟩ := except_bind_ok_inv h
    obtain ⟨ct, hct, h⟩ := except_bind_ok_inv h
    obtain ⟨x5, h5, h⟩ := except_bind_ok_inv h
    obtain ⟨ts, hts, h⟩ := except_bind_ok_inv h
    simp [pyFromDictRaises, getItem_ok_inv h1, getItem_ok_inv h3,
      getItem_ok_inv h4, getItem_ok_inv h5, fromisoformat_ok_inv hts]
  | vnone =>
    simp only [AgentMessage.from_dict, PyVal.getItem, bind, Except.bind] at h
    exact Except.noConfusion h
  | vbool b =>
    simp only [AgentMessage.from_dict, PyVal.getItem, bind, Except.bind] at h
    exact Except.noConfusion h
  | vint n =>
    simp only [AgentMessage.from_dict, PyVal.getItem, bind, Except.bind] at h
    exact Except.noConfusion h
  | vstr s =>
    simp only [AgentMessage.from_dict, PyVal.getItem, bind, Except.bind] at h
    exact Except.noConfusion h
  | isoTimestamp t =>
    simp only [AgentMessage.from_dict, PyVal.getItem, bind, Except.bind] at h
    exact Except.noConfusion h

/-- C5: `get_message` never raises to the caller: when the bounded wait
elapses on an empty channel, the call returns `None` with the queue still
intact; and at any queue head on which Python's decode raises, the call
returns `None` with the head consumed by the destructive pop that
preceded the raise — in both cases the bare `except` turns the exception
into the absent value instead of propagating it. -/
theorem get_message_absorbs_errors (st : ManagerState) (agent_id : String)
    (timeout : Nat) :
    (st.message_queue = [] → get_message st agent_id timeout = (Option.none, st)) ∧
    (∀ (msg_dict : PyVal) (rest : List PyVal),
      st.message_queue = msg_dict :: rest →
      pyFromDictRaises msg_dict = true →
      get_message st agent_id timeout =
        (Option.none, { st with message_queue := rest })) := by
  constructor
  · intro hq
    unfold get_message get_message_body
    rw [hq]
  · intro msg_dict rest hq hraise
    unfold get_message get_message_body
    rw [hq]
    cases hfd : AgentMessage.from_dict msg_dict with
    | error e => simp [hfd]
    | ok m =>
      rw [pyFromDictRaises_false_of_ok msg_dict m hfd] at hraise
      exact Bool.noConfusion hraise

/-- C5 witness: the empty fresh channel yields `None` with the state
untouched; a head dict missing every required key — on which Python's
decode raises `KeyError` after the pop — yields `None` with the head
consumed. -/
theorem get_message_absorbs_errors_witness :
    get_message initState "w1" 1 = (Option.none, initState) ∧
    get_message { initState with message_queue := [PyVal.vdict []] } "w1" 1 =
      (Option.none,
       { { initState with message_queue := [PyVal.vdict []] } with
         message_queue := [] }) :=
  ⟨(get_message_absorbs_errors initState "w1" 1).1 (by rfl),
   (get_message_absorbs_errors { initState with message_queue := [PyVal.vdict []] }
      "w1" 1).2 (PyVal.vdict []) [] (by rfl) (by rfl)⟩

/-- C3: when the next message on the channel decodes to `m` with
`to_agent = A`, a `get_message` call by `A` pops and returns `m`, while a
`get_message` call by any other id `B` pops it, pushes the raw dict back
onto the tail of the channel unchanged, and returns `None` — the rest of
the channel (which may hold messages addressed to `B` deeper down) is
untouched, so each call examines at most one message. -/
theorem get_message_delivers_only_to_addressee (st : ManagerState)
    (msg_dict : PyVal) (rest : List PyVal) (m : AgentMessage) (A : String)
    (timeout : Nat)
    (hq : st.message_queue = msg_dict :: rest)
    (hm : AgentMessage.from_dict msg_dict = Except.ok m)
    (hA : m.to_agent = some A) :
    get_message st A timeout = (some m, { st with message_queue := rest }) ∧
    (∀ B : String, B ≠ A →
      get_message st B timeout =
        (Option.none, { st with message_queue := rest ++ [msg_dict] })) := by
  constructor
  · unfold get_message get_message_body
    rw [hq]
    simp [hm, hA]
  · intro B hne
    unfold get_message get_message_body
    rw [hq]
    simp [hm, hA, Ne.symm hne]

/-- C3 witness: a single task message addressed to `A` is returned to `A`
and requeued unchanged, with `None`, for `B`. -/
theorem get_message_delivers_only_to_addressee_witness :
    get_message (send_message initState
        { from_agent := "orchestrator", to_agent := some "A", message_type := "task"
        , content := [("x", PyVal.vint 1)], timestamp := 0 }) "A" 1 =
      (some { from_agent := "orchestrator", to_agent := some "A", message_type := "task"
            , content := [("x", PyVal.vint 1)], timestamp := 0 },
       { send_message initState
          { from_agent := "orchestrator", to_agent := some "A", message_type := "task"
          , content := [("x", PyVal.vint 1)], timestamp := 0 } with message_queue := [] }) ∧
    get_message (send_message initState
        { from_agent := "orchestrator", to_agent := some "A", message_type := "task"
        , content := [("x", PyVal.vint 1)], timestamp := 0 }) "B" 1 =
      (Option.none,
       { send_message initState
          { from_agent := "orchestrator", to_agent := some "A", message_type := "task"
          , content := [("x", PyVal.vint 1)], timestamp := 0 } with
         message_queue := [] ++ [AgentMessage.to_dict
          { from_agent := "orchestrator", to_agent := some "A", message_type := "task"
          , content := [("x", PyVal.vint 1)], timestamp := 0 }] }) := by
  have h := get_message_delivers_only_to_addressee
    (send_message initState
      { from_agent := "orchestrator", to_agent := some "A", message_type := "task"
      , content := [("x", PyVal.vint 1)], timestamp := 0 })
    (AgentMessage.to_dict
      { from_agent := "orchestrator", to_agent := some "A", message_type := "task"
      , content := [("x", PyVal.vint 1)], timestamp := 0 })
    []
    { from_agent := "orchestrator", to_agent := some "A", message_type := "task"
    , content := [("x", PyVal.vint 1)], timestamp := 0 }
    "A" 1 (by rfl) (by rfl) (by rfl)
  exact ⟨h.1, h.2 "B" (by decide)⟩

/-- C9: an advisory `FileLock.acquire` call on a handle that already holds
the lock is idempotent: it returns success at once, makes no
`fcntl.flock` attempt against the operating system, and leaves the handle
unchanged — whatever the blocking mode, the fresh descriptor, and the OS
behaviour would have been. -/
theorem filelock_acquire_idempotent_when_held (l : FileLock) (fd0 : Nat)
    (h : l.lock_fd = some fd0) (blocking : Bool) (fd : Nat) (os : List Bool) :
    FileLock.acquire l blocking fd os =
      { ok := true, lock := l, os_attempts := 0 } := by
  unfold FileLock.acquire
  rw [h]
  rfl

/-- C9 witness: a handle holding descriptor 3 acquires again without
touching the OS, even though the OS would refuse the lock. -/
theorem filelock_acquire_idempotent_when_held_witness :
    FileLock.acquire { FileLock.init "f.txt" 10 with lock_fd := some 3 } true 4 [false] =
      { ok := true, lock := { FileLock.init "f.txt" 10 with lock_fd := some 3 }
      , os_attempts := 0 } :=
  filelock_acquire_idempotent_when_held
    { FileLock.init "f.txt" 10 with lock_fd := some 3 } 3 (by rfl) true 4 [false]

/-! ### Successful status updates -/

theorem update_agent_status_ok (st : ManagerState) (agent_id status : String)
    (current_task : Option String) (error : Option String) (data : PyVal)
    (a : AgentStatus)
    (hd : alookup agent_id st.agent_status = some data)
    (ha : AgentStatus.from_dict data = Except.ok a) :
    update_agent_status st agent_id status current_task error =
      Except.ok
        { st with
          agent_status :=
            aset agent_id
              (AgentStatus.to_dict (a.update status current_task error st.clock))
              st.agent_status
        , clock := st.clock + 1 } := by
  unfold update_agent_status
  rw [hd]
  simp [ha]

theorem regRecord_after_update (st : ManagerState) (agent_id status : String)
    (current_task : Option String) (error : Option String) (data : PyVal)
    (a : AgentStatus)
    (hd : alookup agent_id st.agent_status = some data)
    (ha : AgentStatus.from_dict data = Except.ok a) :
    ∃ st2, update_agent_status st agent_id status current_task error = Except.ok st2 ∧
      regRecord st2 agent_id = some (a.update status current_task error st.clock) := by
  refine ⟨_, update_agent_status_ok st agent_id status current_task error data a hd ha, ?_⟩
  unfold regRecord
  simp [alookup_aset_self, from_dict_to_dict_status]

/-! ### Witness fixtures: a one-agent registry -/

/-- A fresh manager with the single agent `w` registered. -/
def regW1 : ManagerState := register_agent initState "w" "worker"

/-- The idle record `register_agent` stores for `w`. -/
def wIdle : AgentStatus :=
  { agent_id := "w", agent_type := "worker", status := "idle"
  , current_task := Option.none, started_at := Option.none
  , completed_at := Option.none, error := Option.none }

/-- State `regW1` after a first update to `running` (start timestamp 0). -/
def regW2 : ManagerState :=
  match update_agent_status regW1 "w" "running" Option.none Option.none with
  | Except.ok st => st
  | Except.error _ => initState

/-- The running record stored in `regW2`. -/
def wRunning : AgentStatus := { wIdle with status := "running", started_at := some 0 }

/-- State `regW1` after an update to `completed` (completion timestamp 0). -/
def regWDone : ManagerState :=
  match update_agent_status regW1 "w" "completed" Option.none Option.none with
  | Except.ok st => st
  | Except.error _ => initState

/-- The completed record stored in `regWDone`. -/
def wDone : AgentStatus := { wIdle with status := "completed", completed_at := some 0 }

/-- C2 counterexample: the first update of `w` to `completed` stamps
completion time 0, but a second `completed` update OVERWRITES it with
time 1 — the claim that a later terminal update leaves the already-set
completion timestamp unchanged is false on the code (only `started_at`
carries the `is None` guard; `completed_at` is assigned on every
`completed`/`error` update). -/
theorem completed_at_overwritten_counterexample :
    completedAtAfter (update_agent_status regW1 "w" "completed"
      Option.none Option.none) "w" = some (some 0) ∧
    completedAtAfter (update_agent_status regWDone "w" "completed"
      Option.none Option.none) "w" = some (some 1) ∧
    completedAtAfter (update_agent_status regWDone "w" "completed"
        Option.none Option.none) "w" ≠
      completedAtAfter (update_agent_status regW1 "w" "completed"
        Option.none Option.none) "w" := by
  decide

/-- C2 (amended): for every registered agent, `update_agent_status` with
state `completed` or `error` sets the completion timestamp to the current
time on every such call, overwriting any previously set value (the
set-only-once behaviour holds for the start timestamp only). -/
theorem completed_at_set_on_every_terminal_update (st : ManagerState)
    (agent_id status : String) (current_task : Option String)
    (error : Option String) (data : PyVal) (a : AgentStatus)
    (hd : alookup agent_id st.agent_status = some data)
    (ha : AgentStatus.from_dict data = Except.ok a)
    (hstatus : status = "completed" ∨ status = "error") :
    ∃ st2, update_agent_status st agent_id status current_task error = Except.ok st2 ∧
      (regRecord st2 agent_id).map AgentStatus.completed_at = some (some st.clock) := by
  obtain ⟨st2, h1, h2⟩ :=
    regRecord_after_update st agent_id status current_task error data a hd ha
  refine ⟨st2, h1, ?_⟩
  rw [h2]
  rcases hstatus with h | h <;> subst h <;> simp [AgentStatus.update]

/-- C2 witness: on the record whose completion timestamp is already 0, a
further `completed` update restamps it with the current clock (1). -/
theorem completed_at_set_on_every_terminal_update_witness :
    ∃ st2, update_agent_status regWDone "w" "completed" Option.none Option.none =
        Except.ok st2 ∧
      (regRecord st2 "w").map AgentStatus.completed_at = some (some regWDone.clock) :=
  completed_at_set_on_every_terminal_update regWDone "w" "completed"
    Option.none Option.none (AgentStatus.to_dict wDone) wDone
    (by rfl) (by rfl) (Or.inl rfl)

/-- C7: for a registered agent, an update to `running` sets the start
timestamp exactly when it is still unset; when the record already carries
a start timestamp, a second update to `running` leaves it unchanged. -/
theorem started_at_set_only_on_first_running (st : ManagerState)
    (agent_id : String) (current_task : Option String) (error : Option String)
    (data : PyVal) (a : AgentStatus)
    (hd : alookup agent_id st.agent_status = some data)
    (ha : AgentStatus.from_dict data = Except.ok a) :
    (a.started_at = Option.none →
      ∃ st2, update_agent_status st agent_id "running" current_task error =
          Except.ok st2 ∧
        startedAtIn st2 agent_id = some (some st.clock)) ∧
    (∀ t : Nat, a.started_at = some t →
      ∃ st2, update_agent_status st agent_id "running" current_task error =
          Except.ok st2 ∧
        startedAtIn st2 agent_id = some (some t)) := by
  constructor
  · intro hnone
    obtain ⟨st2, h1, h2⟩ :=
      regRecord_after_update st agent_id "running" current_task error data a hd ha
    refine ⟨st2, h1, ?_⟩
    unfold startedAtIn
    rw [h2]
    simp [AgentStatus.update, hnone]
  · intro t ht
    obtain ⟨st2, h1, h2⟩ :=
      regRecord_after_update st agent_id "running" current_task error data a hd ha
    refine ⟨st2, h1, ?_⟩
    unfold startedAtIn
    rw [h2]
    simp [AgentStatus.update, ht]

/-- C7 witness: the first `running` update of `w` stamps start time 0; a
second `running` update on the already-running record keeps it at 0 even
though the clock has advanced. -/
theorem started_at_set_only_on_first_running_witness :
    (∃ st2, update_agent_status regW1 "w" "running" Option.none Option.none =
        Except.ok st2 ∧
      startedAtIn st2 "w" = some (some 0)) ∧
    (∃ st2, update_agent_status regW2 "w" "running" Option.none Option.none =
        Except.ok st2 ∧
      startedAtIn st2 "w" = some (some 0)) :=
  And.intro
    ((started_at_set_only_on_first_running regW1 "w" Option.none Option.none
      (AgentStatus.to_dict wIdle) wIdle (by rfl) (by rfl)).1 (by rfl))
    ((started_at_set_only_on_first_running regW2 "w" Option.none Option.none
      (AgentStatus.to_dict wRunning) wRunning (by rfl) (by rfl)).2 0 (by rfl))

/-- C10: after any successful `update_agent_status` call, the stored
record's `current_task` and `error` fields equal exactly the arguments
passed (both default to `None` in Python, so a call that omits them
unconditionally clears previously stored values), while the record's
`agent_id` and `agent_type` are unchanged. -/
theorem update_sets_task_error_frame (st : ManagerState)
    (agent_id status : String) (current_task : Option String)
    (error : Option String) (data : PyVal) (a : AgentStatus)
    (hd : alookup agent_id st.agent_status = some data)
    (ha : AgentStatus.from_dict data = Except.ok a) :
    ∃ st2, update_agent_status st agent_id status current_task error = Except.ok st2 ∧
      ∃ a2, regRecord st2 agent_id = some a2 ∧
        a2.current_task = current_task ∧ a2.error = error ∧
        a2.agent_id = a.agent_id ∧ a2.agent_type = a.agent_type := by
  obtain ⟨st2, h1, h2⟩ :=
    regRecord_after_update st agent_id status current_task error data a hd ha
  refine ⟨st2, h1, a.update status current_task error st.clock, h2, ?_, ?_, ?_, ?_⟩ <;>
    (simp only [AgentStatus.update]; split_ifs <;> rfl)

/-- C10 witness: updating `w` with an explicit task and error stores
exactly those values with identity untouched; the explicit existential
output is obtained from the theorem applied to the concrete state. -/
theorem update_sets_task_error_frame_witness :
    ∃ st2, update_agent_status regW1 "w" "running" (some "build") (some "boom") =
        Except.ok st2 ∧
      ∃ a2, regRecord st2 "w" = some a2 ∧
        a2.current_task = some "build" ∧ a2.error = some "boom" ∧
        a2.agent_id = wIdle.agent_id ∧ a2.agent_type = wIdle.agent_type :=
  update_sets_task_error_frame regW1 "w" "running" (some "build") (some "boom")
    (AgentStatus.to_dict wIdle) wIdle (by rfl) (by rfl)

end MugenClaude
